import Mathlib

/-!
Verification development for a multi-camera security recorder
(`securitycam.py`): per-camera chunk storage with oldest-first eviction
(`CameraProcess.cleanup_old_files`), chunk rotation (`start_new_chunk`),
the per-camera recording loop (`record`), the codec-fallback video writer
(`VideoWriter`), configuration loading (`MultiCameraSystem.load_config`)
and the shutdown signal handler (`MultiCameraSystem.signal_handler`).

The embedding models the on-disk state of one camera's storage directory
as a list of files with names, modification times and sizes; the
filesystem calls (`glob`, `stat`, `unlink`) are interpreted over that
list, with an injectable failure predicate for `unlink` standing for
permission errors / already-gone files.
-/

namespace SecurityCam

/-- One directory entry: file name, last-modified time, size in bytes
(`Path.stat().st_mtime` / `st_size`). -/
structure DiskFile where
  name : String
  mtime : Nat
  size : Nat
deriving DecidableEq, Repr

/-- Suffix test on strings, computed on the underlying character lists
(extensionally `String.endsWith`). -/
def strEndsWith (s suffix : String) : Bool :=
  s.data.reverse.take suffix.data.length == suffix.data.reverse

/-- `storage_dir.glob("*.mp4")` keeps exactly the entries whose name ends in
`.mp4` (`*` matches any run of characters, the empty one included). -/
def isMp4 (f : DiskFile) : Bool := strEndsWith f.name ".mp4"

/-- The files `glob("*.mp4")` returns from a directory listing. -/
def mp4Files (dir : List DiskFile) : List DiskFile := dir.filter isMp4

/-- Sort key of `sorted(..., key=lambda x: x.stat().st_mtime)`. -/
def mtimeLE (a b : DiskFile) : Prop := a.mtime ≤ b.mtime

instance : DecidableRel mtimeLE := fun a b => Nat.decLe a.mtime b.mtime

instance : IsTotal DiskFile mtimeLE := ⟨fun a b => Nat.le_total a.mtime b.mtime⟩

instance : IsTrans DiskFile mtimeLE := ⟨fun _ _ _ h h' => Nat.le_trans h h'⟩

/-- `sorted(video_files, key=lambda x: x.stat().st_mtime)`. -/
def sortByMtime (l : List DiskFile) : List DiskFile := List.insertionSort mtimeLE l

/-- `sum(f.stat().st_size for f in video_files)`. -/
def sizeSum (fs : List DiskFile) : Nat := (fs.map DiskFile.size).sum

/-- `oldest_file.unlink()` removes the entry with that path from the
directory. -/
def removeName (dir : List DiskFile) (n : String) : List DiskFile :=
  dir.filter (fun f => f.name ≠ n)

/-- The log lines `cleanup_old_files` can emit: the `logging.info` line before
each unlink, and the `logging.error` line of the `except` clause. -/
inductive LogEntry where
  | removing (name : String)
  | cleanupError
deriving DecidableEq, Repr

/-- Outcome of one eviction pass: the directory afterwards, the files that were
unlinked (in deletion order), the log, and whether the pass ran to completion
(`ok = false` when the surrounding `except` clause caught an exception). -/
structure EvictResult where
  dir : List DiskFile
  deleted : List DiskFile
  log : List LogEntry
  ok : Bool
deriving DecidableEq, Repr

/-- The `while total_size > self.max_storage_bytes and video_files:` loop of
`cleanup_old_files`: pop the oldest candidate, subtract its size, log, unlink.
`unlinkFails` injects a filesystem error for the named file; the exception it
stands for is caught by the `except` clause, which logs and returns. -/
def evictLoop (quota : Nat) (unlinkFails : String → Bool) :
    List DiskFile → Nat → List DiskFile → List DiskFile → List LogEntry → EvictResult
  | [], _, dir, deleted, log => ⟨dir, deleted, log, true⟩
  | f :: rest, total, dir, deleted, log =>
    if total ≤ quota then ⟨dir, deleted, log, true⟩
    else
      if unlinkFails f.name then
        ⟨dir, deleted, (log ++ [LogEntry.removing f.name]) ++ [LogEntry.cleanupError], false⟩
      else
        evictLoop quota unlinkFails rest (total - f.size) (removeName dir f.name)
          (deleted ++ [f]) (log ++ [LogEntry.removing f.name])

/-- `CameraProcess.cleanup_old_files`: list `*.mp4` files sorted by mtime,
total their sizes, then delete oldest-first while the total exceeds
`max_storage_bytes`. -/
def cleanup_old_files (quota : Nat) (unlinkFails : String → Bool)
    (dir : List DiskFile) : EvictResult :=
  let vids := sortByMtime (mp4Files dir)
  evictLoop quota unlinkFails vids (sizeSum vids) dir [] []

/-- Which codecs the backend can initialize for the target container; stands
for the behaviour of `cv2.VideoWriter_fourcc`/`cv2.VideoWriter` on the host. -/
structure CodecEnv where
  mp4vOpens : Bool
  mjpgOpens : Bool
deriving DecidableEq, Repr

/-- A `cv2.VideoWriter` object: chosen fourcc, its `isOpened()` flag, and the
frames it has actually encoded. Per the cv2 contract the constructor,
`write` and `release` never raise; `write` on an unopened writer is a no-op. -/
structure VW where
  codec : String
  opened : Bool
  frames : List Nat
deriving DecidableEq, Repr

/-- `cv2.VideoWriter(filename, fourcc, fps, frame_size)`: always returns an
object; `opened` records whether the codec initialized. -/
def cv2VideoWriter (cenv : CodecEnv) (codec : String) : VW :=
  { codec := codec
    opened := if codec = "mp4v" then cenv.mp4vOpens
              else if codec = "MJPG" then cenv.mjpgOpens else false
    frames := [] }

/-- `VideoWriter.__init__`: build an `mp4v` writer; if it did not open, build
an `MJPG` writer instead. No branch checks the second attempt. -/
def VideoWriter.make (cenv : CodecEnv) : VW :=
  let w := cv2VideoWriter cenv "mp4v"
  if w.opened then w else cv2VideoWriter cenv "MJPG"

/-- `VideoWriter.write` → `cv2.VideoWriter.write`: encodes the frame when the
writer is opened, silently drops it otherwise; never raises. -/
def VW.write (w : VW) (fr : Nat) : VW :=
  if w.opened then { w with frames := w.frames ++ [fr] } else w

/-- Writing a whole frame sequence. -/
def writeAll (w : VW) (fs : List Nat) : VW := fs.foldl VW.write w

/-- Observable events of one `CameraProcess.record` run, in program order. -/
inductive Ev where
  | capOpen
  | writerRelease
  | writerOpen (name : String)
  | frameWrite (fr : Nat)
  | cleanup
  | logRecordError
  | capRelease
deriving DecidableEq, Repr

/-- The chunk file name `f"{timestamp}.mp4"`, with the timestamp rendered from
the clock value at chunk start. -/
def chunkName (t : Nat) : String := toString t ++ ".mp4"

/-- `CameraProcess.start_new_chunk` at clock value `t`: release the previous
writer if there is one, then construct the new chunk's `VideoWriter`
(`chunk_start_time` becomes `t`). Returns the new writer and the emitted
events. -/
def start_new_chunk (cenv : CodecEnv) (t : Nat) (prev : Option VW) : VW × List Ev :=
  let rel : List Ev := match prev with
    | some _ => [Ev.writerRelease]
    | none => []
  (VideoWriter.make cenv, rel ++ [Ev.writerOpen (chunkName t)])

/-- One iteration's inputs to the `while self.running:` loop: the value of the
`running` flag observed at the loop head, the result of `self.cap.read()`
(`none` = `ret` false), and the value of `time.time()` at the rotation
check. -/
structure Step where
  running : Bool
  read : Option Nat
  now : Nat
deriving DecidableEq, Repr

/-- Result of the recording loop: final writer, events, and whether the loop
ended by raising (`Failed to read frame`). -/
structure LoopOut where
  writer : VW
  evs : List Ev
  raised : Bool
deriving DecidableEq, Repr

/-- The `while self.running:` loop of `CameraProcess.record`: read a frame
(a failed read raises out of the loop), write it to the active writer, and
when `now - chunk_start_time` exceeds `chunk_duration_mins * 60` rotate via
`start_new_chunk` and then run `cleanup_old_files` (marked by `Ev.cleanup`).
An exhausted schedule models the flag turning false. -/
def recLoop (cenv : CodecEnv) (dur : Nat) : List Step → VW → Nat → LoopOut
  | [], w, _ => ⟨w, [], false⟩
  | s :: rest, w, cs =>
    if s.running then
      match s.read with
      | none => ⟨w, [], true⟩
      | some fr =>
        let w1 := w.write fr
        if s.now - cs > dur * 60 then
          let out := recLoop cenv dur rest (start_new_chunk cenv s.now (some w1)).1 s.now
          ⟨out.writer,
            Ev.frameWrite fr :: ((start_new_chunk cenv s.now (some w1)).2
              ++ (Ev.cleanup :: out.evs)), out.raised⟩
        else
          let out := recLoop cenv dur rest w1 cs
          ⟨out.writer, Ev.frameWrite fr :: out.evs, out.raised⟩
    else ⟨w, [], false⟩

/-- Environment of one `record` run: whether `cv2.VideoCapture(device_id)`
opens, the codec environment, the clock value when the first chunk starts,
and the loop schedule. -/
structure CamEnv where
  openOk : Bool
  codec : CodecEnv
  t0 : Nat
  steps : List Step
deriving DecidableEq, Repr

/-- Result of a `record` run: the event trace and the final active writer
(`none` when the capture never opened, so no writer was ever created). -/
structure RecordOut where
  trace : List Ev
  finalWriter : Option VW
deriving DecidableEq, Repr

/-- `CameraProcess.record`: open the capture (failure raises, is logged by the
`except` clause, and the `finally` clause still releases the capture object);
otherwise start the first chunk, run the loop, log a recording error if the
loop raised, and in `finally` release the writer (non-`None` here) and the
capture. -/
def record (env : CamEnv) (dur : Nat) : RecordOut :=
  if env.openOk then
    let w0 := (start_new_chunk env.codec env.t0 none).1
    let out := recLoop env.codec dur env.steps w0 env.t0
    { trace := Ev.capOpen :: ((start_new_chunk env.codec env.t0 none).2
        ++ out.evs
        ++ (if out.raised then [Ev.logRecordError] else [])
        ++ [Ev.writerRelease, Ev.capRelease])
      finalWriter := some out.writer }
  else
    { trace := [Ev.capOpen, Ev.logRecordError, Ev.capRelease], finalWriter := none }

/-- Counts rotation triggers along the processed part of the schedule: the
steps at which `now - chunk_start_time > chunk_duration_mins * 60` held. -/
def rotCount (dur : Nat) : List Step → Nat → Nat
  | [], _ => 0
  | s :: rest, cs =>
    if s.running then
      match s.read with
      | none => 0
      | some _ =>
        if s.now - cs > dur * 60 then rotCount dur rest s.now + 1
        else rotCount dur rest cs
    else 0

/-- Whether the loop ends by a failed `cap.read()` (rather than by the flag
or schedule end). -/
def readFailReached (dur : Nat) : List Step → Nat → Bool
  | [], _ => false
  | s :: rest, cs =>
    if s.running then
      match s.read with
      | none => true
      | some _ =>
        if s.now - cs > dur * 60 then readFailReached dur rest s.now
        else readFailReached dur rest cs
    else false

/-- Event classifiers used for counting. -/
def isOpenEv : Ev → Bool
  | Ev.writerOpen _ => true
  | _ => false

def isWriterReleaseEv : Ev → Bool
  | Ev.writerRelease => true
  | _ => false

def isCleanupEv : Ev → Bool
  | Ev.cleanup => true
  | _ => false

def isCapReleaseEv : Ev → Bool
  | Ev.capRelease => true
  | _ => false

def isLogErrEv : Ev → Bool
  | Ev.logRecordError => true
  | _ => false

/-- Scans a trace keeping the number of writers currently open (`n`); reports
`false` as soon as a writer is opened while another is still open. -/
def atMostOneOpen : List Ev → Nat → Bool
  | [], _ => true
  | Ev.writerOpen _ :: rest, n => decide (n = 0) && atMostOneOpen rest (n + 1)
  | Ev.writerRelease :: rest, n => atMostOneOpen rest (n - 1)
  | Ev.capOpen :: rest, n => atMostOneOpen rest n
  | Ev.frameWrite _ :: rest, n => atMostOneOpen rest n
  | Ev.cleanup :: rest, n => atMostOneOpen rest n
  | Ev.logRecordError :: rest, n => atMostOneOpen rest n
  | Ev.capRelease :: rest, n => atMostOneOpen rest n

/-- Checks that every `cleanup` event is immediately preceded by a
`writerOpen` event (eviction happens only right after a chunk begins). -/
def chkCleanup : List Ev → Bool
  | [] => true
  | Ev.writerOpen _ :: Ev.cleanup :: rest => chkCleanup rest
  | Ev.cleanup :: _ => false
  | _ :: rest => chkCleanup rest

/-- Actions of `MultiCameraSystem` control flow relevant to shutdown:
mutating the shared flag, `camera.stop()`, `thread.join()`, and
`sys.exit(code)`. -/
inductive SupAct where
  | setRunningFalse
  | stopWorker (id : String)
  | joinWorker (id : String)
  | exitProcess (code : Nat)
deriving DecidableEq, Repr

/-- `MultiCameraSystem.signal_handler`: log, set `self.running = False`, call
`stop()` on every camera (in registration order), then `sys.exit(0)`. The
`SystemExit` it raises propagates out of `run()`'s sleep loop, so the
`thread.join()` calls after that loop are never reached on this path. -/
def signal_handler (cams : List String) : List SupAct :=
  SupAct.setRunningFalse :: (cams.map SupAct.stopWorker ++ [SupAct.exitProcess 0])

/-- One entry of the config's `cameras` list: `id` and `device_id` are
required keys, `max_storage_gb` and `chunk_duration_mins` are looked up with
`.get(..., default)`. -/
structure CamConfig where
  id : String
  device_id : Nat
  max_storage_gb : Option Nat
  chunk_duration_mins : Option Nat
deriving DecidableEq, Repr

/-- The parsed JSON config: optional `base_storage_dir`, and the `cameras`
key, which `load_config` accesses unconditionally (`config['cameras']`), so
its absence raises `KeyError`. -/
structure Config where
  base_storage_dir : Option String
  cameras : Option (List CamConfig)
deriving DecidableEq, Repr

/-- The `CameraProcess` constructor arguments derived from one camera entry:
defaults 50 GB and 60 minutes, `max_storage_bytes = max_storage_gb * 1024^3`. -/
structure CameraSettings where
  camera_id : String
  device_id : Nat
  max_storage_bytes : Nat
  chunk_duration_mins : Nat
deriving DecidableEq, Repr

/-- Construction of one `CameraProcess` from its config entry. -/
def mkCameraProcess (c : CamConfig) : CameraSettings :=
  { camera_id := c.id
    device_id := c.device_id
    max_storage_bytes := c.max_storage_gb.getD 50 * 1024 * 1024 * 1024
    chunk_duration_mins := c.chunk_duration_mins.getD 60 }

/-- `MultiCameraSystem.load_config`: `input = none` models a missing or
unparseable config file (the `open`/`json.load` raised); a missing `cameras`
key raises `KeyError`. Both are caught by the `except` clause which logs and
calls `sys.exit(1)` (`Except.error 1`). Otherwise every entry of `cameras`
is turned into a `CameraProcess` — an empty list included. -/
def load_config (input : Option Config) : Except Nat (List CameraSettings) :=
  match input with
  | none => Except.error 1
  | some cfg =>
    match cfg.cameras with
    | none => Except.error 1
    | some cams => Except.ok (cams.map mkCameraProcess)

/-- Scenario for the eviction claims: the chunk file that `start_new_chunk`
opened at clock value 100 (the camera's `current_file`, still being
written), 10 bytes on disk. -/
def activeChunkFile : DiskFile := { name := chunkName 100, mtime := 100, size := 10 }

/-- A recording environment whose capture opens but where neither `mp4v` nor
`MJPG` initializes, fed two frames and no rotation. -/
def c4env : CamEnv :=
  { openOk := true
    codec := { mp4vOpens := false, mjpgOpens := false }
    t0 := 0
    steps := [ { running := true, read := some 7, now := 10 },
               { running := true, read := some 8, now := 20 } ] }

lemma sizeSum_cons (f : DiskFile) (l : List DiskFile) :
    sizeSum (f :: l) = f.size + sizeSum l := by
  simp [sizeSum]

lemma perm_sizeSum {l l' : List DiskFile} (h : l.Perm l') : sizeSum l = sizeSum l' := by
  exact List.Perm.sum_eq (h.map DiskFile.size)

lemma mp4Files_removeName (dir : List DiskFile) (n : String) :
    mp4Files (removeName dir n) = removeName (mp4Files dir) n := by
  simp only [mp4Files, removeName, List.filter_filter]
  apply List.filter_congr
  intro a _
  rw [Bool.and_comm]

lemma mp4Files_idem (dir : List DiskFile) : mp4Files (mp4Files dir) = mp4Files dir := by
  simp [mp4Files, List.filter_filter]

lemma sortByMtime_perm (l : List DiskFile) : (sortByMtime l).Perm l :=
  List.perm_insertionSort mtimeLE l

lemma sortByMtime_sorted (l : List DiskFile) : List.Sorted mtimeLE (sortByMtime l) :=
  List.sorted_insertionSort mtimeLE l

lemma evictLoop_nil (quota : Nat) (u : String → Bool) (total : Nat)
    (dir deleted : List DiskFile) (log : List LogEntry) :
    evictLoop quota u [] total dir deleted log = ⟨dir, deleted, log, true⟩ := rfl

lemma evictLoop_cons_le {quota total : Nat} (u : String → Bool) {f : DiskFile}
    (rest dir deleted : List DiskFile) (log : List LogEntry) (h : total ≤ quota) :
    evictLoop quota u (f :: rest) total dir deleted log = ⟨dir, deleted, log, true⟩ := by
  simp [evictLoop, h]

lemma evictLoop_cons_gt_ok {quota total : Nat} {u : String → Bool} {f : DiskFile}
    (rest dir deleted : List DiskFile) (log : List LogEntry)
    (h : ¬ total ≤ quota) (hu : u f.name = false) :
    evictLoop quota u (f :: rest) total dir deleted log
      = evictLoop quota u rest (total - f.size) (removeName dir f.name)
          (deleted ++ [f]) (log ++ [LogEntry.removing f.name]) := by
  simp [evictLoop, h, hu]

lemma evictLoop_cons_gt_fail {quota total : Nat} {u : String → Bool} {f : DiskFile}
    (rest dir deleted : List DiskFile) (log : List LogEntry)
    (h : ¬ total ≤ quota) (hu : u f.name = true) :
    evictLoop quota u (f :: rest) total dir deleted log
      = ⟨dir, deleted, (log ++ [LogEntry.removing f.name]) ++ [LogEntry.cleanupError],
          false⟩ := by
  simp [evictLoop, h, hu]

lemma evictLoop_noFail (quota : Nat) :
    ∀ (cands : List DiskFile), ∀ (dir deleted : List DiskFile), ∀ (log : List LogEntry),
    (mp4Files dir).Perm cands →
    (cands.map DiskFile.name).Nodup →
    (sizeSum (mp4Files
        (evictLoop quota (fun _ => false) cands (sizeSum cands) dir deleted log).dir) ≤ quota
      ∨ mp4Files (evictLoop quota (fun _ => false) cands (sizeSum cands) dir deleted log).dir
          = []) ∧
    ∃ k, (evictLoop quota (fun _ => false) cands (sizeSum cands) dir deleted log).deleted
        = deleted ++ cands.take k := by
  intro cands
  induction cands with
  | nil =>
    intro dir deleted log hperm _
    exact ⟨Or.inr (List.Perm.eq_nil hperm), 0, by simp [evictLoop]⟩
  | cons f rest ih =>
    intro dir deleted log hperm hnd
    by_cases hq : sizeSum (f :: rest) ≤ quota
    · rw [evictLoop_cons_le _ rest dir deleted log hq]
      refine ⟨Or.inl ?_, 0, by simp⟩
      rw [perm_sizeSum hperm]
      exact hq
    · rw [evictLoop_cons_gt_ok rest dir deleted log hq rfl]
      have hnmem : ∀ g ∈ rest, g.name ≠ f.name := by
        intro g hg heq
        have hcons : (f.name :: rest.map DiskFile.name).Nodup := by
          simpa using hnd
        exact (List.nodup_cons.mp hcons).1 (heq ▸ List.mem_map_of_mem DiskFile.name hg)
      have hrest : removeName (f :: rest) f.name = rest := by
        rw [removeName, List.filter_cons_of_neg (by simp)]
        exact List.filter_eq_self.mpr (fun g hg => by simpa using hnmem g hg)
      have hperm' : (mp4Files (removeName dir f.name)).Perm rest := by
        rw [mp4Files_removeName]
        have h2 : (removeName (mp4Files dir) f.name).Perm (removeName (f :: rest) f.name) :=
          hperm.filter _
        rw [hrest] at h2
        exact h2
      have harg : sizeSum (f :: rest) - f.size = sizeSum rest := by
        rw [sizeSum_cons, Nat.add_sub_cancel_left]
      rw [harg]
      have hnd' : (rest.map DiskFile.name).Nodup := by
        have hcons : (f.name :: rest.map DiskFile.name).Nodup := by simpa using hnd
        exact (List.nodup_cons.mp hcons).2
      obtain ⟨hdisj, k, hdel⟩ :=
        ih (removeName dir f.name) (deleted ++ [f])
          (log ++ [LogEntry.removing f.name]) hperm' hnd'
      refine ⟨hdisj, k + 1, ?_⟩
      rw [hdel, List.take_succ_cons, List.append_assoc]
      simp

lemma sorted_mp4_names_nodup (dir : List DiskFile)
    (hnd : (dir.map DiskFile.name).Nodup) :
    ((sortByMtime (mp4Files dir)).map DiskFile.name).Nodup := by
  have hsub : List.Sublist ((mp4Files dir).map DiskFile.name) (dir.map DiskFile.name) :=
    (List.filter_sublist dir).map DiskFile.name
  have hnd1 : ((mp4Files dir).map DiskFile.name).Nodup := hnd.sublist hsub
  exact (((sortByMtime_perm (mp4Files dir)).map DiskFile.name).nodup_iff).mpr hnd1

lemma isMp4_of_name_eq {f g : DiskFile} (h : f.name = g.name) : isMp4 f = isMp4 g := by
  simp [isMp4, h]

lemma evictLoop_fail_spec (quota : Nat) (fails : String → Bool) :
    ∀ (cands : List DiskFile), ∀ (total : Nat), ∀ (dir deleted : List DiskFile),
    ∀ (log : List LogEntry),
    (∀ f ∈ cands, f ∈ dir) →
    (cands.map DiskFile.name).Nodup →
    (∀ f ∈ deleted, fails f.name = false) →
    (evictLoop quota fails cands total dir deleted log).ok = false →
    (evictLoop quota fails cands total dir deleted log).log.getLast?
        = some LogEntry.cleanupError ∧
    (∀ f ∈ (evictLoop quota fails cands total dir deleted log).deleted,
        fails f.name = false) ∧
    ∃ f, f ∈ (evictLoop quota fails cands total dir deleted log).dir ∧
        fails f.name = true := by
  intro cands
  induction cands with
  | nil =>
    intro total dir deleted log _ _ _ hok
    rw [evictLoop_nil] at hok
    exact absurd hok (by simp)
  | cons f rest ih =>
    intro total dir deleted log hsub hnd hdel hok
    by_cases hq : total ≤ quota
    · rw [evictLoop_cons_le _ rest dir deleted log hq] at hok
      exact absurd hok (by simp)
    · cases hu : fails f.name with
      | true =>
        rw [evictLoop_cons_gt_fail rest dir deleted log hq hu] at hok ⊢
        exact ⟨List.getLast?_concat _, hdel, f, hsub f (List.mem_cons_self f rest), hu⟩
      | false =>
        rw [evictLoop_cons_gt_ok rest dir deleted log hq hu] at hok ⊢
        have hnmem : ∀ g ∈ rest, g.name ≠ f.name := by
          intro g hg heq
          have hcons : (f.name :: rest.map DiskFile.name).Nodup := by simpa using hnd
          exact (List.nodup_cons.mp hcons).1 (heq ▸ List.mem_map_of_mem DiskFile.name hg)
        have hsub' : ∀ g ∈ rest, g ∈ removeName dir f.name := by
          intro g hg
          exact List.mem_filter.mpr
            ⟨hsub g (List.mem_cons_of_mem f hg), by simpa using hnmem g hg⟩
        have hnd' : (rest.map DiskFile.name).Nodup := by
          have hcons : (f.name :: rest.map DiskFile.name).Nodup := by simpa using hnd
          exact (List.nodup_cons.mp hcons).2
        have hdel' : ∀ g ∈ deleted ++ [f], fails g.name = false := by
          intro g hg
          rcases List.mem_append.mp hg with h | h
          · exact hdel g h
          · rw [List.mem_singleton.mp h]
            exact hu
        exact ih (total - f.size) (removeName dir f.name) (deleted ++ [f])
          (log ++ [LogEntry.removing f.name]) hsub' hnd' hdel' hok

lemma evictLoop_dir_indep (quota : Nat) (u : String → Bool) :
    ∀ (cands : List DiskFile), ∀ (total : Nat), ∀ (dir₁ dir₂ deleted : List DiskFile),
    ∀ (log : List LogEntry),
    (evictLoop quota u cands total dir₁ deleted log).deleted
        = (evictLoop quota u cands total dir₂ deleted log).deleted ∧
    (evictLoop quota u cands total dir₁ deleted log).log
        = (evictLoop quota u cands total dir₂ deleted log).log ∧
    (evictLoop quota u cands total dir₁ deleted log).ok
        = (evictLoop quota u cands total dir₂ deleted log).ok := by
  intro cands
  induction cands with
  | nil =>
    intro total dir₁ dir₂ deleted log
    simp [evictLoop_nil]
  | cons f rest ih =>
    intro total dir₁ dir₂ deleted log
    by_cases hq : total ≤ quota
    · simp [evictLoop_cons_le _ rest _ deleted log hq]
    · cases hu : u f.name with
      | true => simp [evictLoop_cons_gt_fail rest _ deleted log hq hu]
      | false =>
        rw [evictLoop_cons_gt_ok rest dir₁ deleted log hq hu,
          evictLoop_cons_gt_ok rest dir₂ deleted log hq hu]
        exact ih (total - f.size) (removeName dir₁ f.name) (removeName dir₂ f.name)
          (deleted ++ [f]) (log ++ [LogEntry.removing f.name])

lemma evictLoop_keeps_non_mp4 (quota : Nat) (u : String → Bool)
    (f : DiskFile) (hf : isMp4 f = false) :
    ∀ (cands : List DiskFile), ∀ (total : Nat), ∀ (dir deleted : List DiskFile),
    ∀ (log : List LogEntry),
    f ∈ dir → (∀ g ∈ cands, isMp4 g = true) →
    f ∈ (evictLoop quota u cands total dir deleted log).dir := by
  intro cands
  induction cands with
  | nil =>
    intro total dir deleted log hmem _
    rw [evictLoop_nil]
    exact hmem
  | cons g rest ih =>
    intro total dir deleted log hmem hall
    by_cases hq : total ≤ quota
    · rw [evictLoop_cons_le _ rest dir deleted log hq]
      exact hmem
    · cases hu : u g.name with
      | true =>
        rw [evictLoop_cons_gt_fail rest dir deleted log hq hu]
        exact hmem
      | false =>
        rw [evictLoop_cons_gt_ok rest dir deleted log hq hu]
        have hne : f.name ≠ g.name := by
          intro heq
          rw [isMp4_of_name_eq heq, hall g (List.mem_cons_self g rest)] at hf
          exact absurd hf (by simp)
        refine ih (total - g.size) (removeName dir g.name) (deleted ++ [g])
          (log ++ [LogEntry.removing g.name])
          (List.mem_filter.mpr ⟨hmem, by simpa using hne⟩)
          (fun g' hg' => hall g' (List.mem_cons_of_mem g hg'))

lemma evictLoop_deleted_mp4 (quota : Nat) (u : String → Bool) :
    ∀ (cands : List DiskFile), ∀ (total : Nat), ∀ (dir deleted : List DiskFile),
    ∀ (log : List LogEntry),
    (∀ g ∈ cands, isMp4 g = true) → (∀ g ∈ deleted, isMp4 g = true) →
    ∀ g ∈ (evictLoop quota u cands total dir deleted log).deleted, isMp4 g = true := by
  intro cands
  induction cands with
  | nil =>
    intro total dir deleted log _ hdel
    rw [evictLoop_nil]
    exact hdel
  | cons f rest ih =>
    intro total dir deleted log hall hdel
    by_cases hq : total ≤ quota
    · rw [evictLoop_cons_le _ rest dir deleted log hq]
      exact hdel
    · cases hu : u f.name with
      | true =>
        rw [evictLoop_cons_gt_fail rest dir deleted log hq hu]
        exact hdel
      | false =>
        rw [evictLoop_cons_gt_ok rest dir deleted log hq hu]
        refine ih (total - f.size) (removeName dir f.name) (deleted ++ [f])
          (log ++ [LogEntry.removing f.name])
          (fun g' hg' => hall g' (List.mem_cons_of_mem f hg')) ?_
        intro g' hg'
        rcases List.mem_append.mp hg' with h | h
        · exact hdel g' h
        · rw [List.mem_singleton.mp h]
          exact hall f (List.mem_cons_self f rest)

/-- C1 (code_bug): the eviction pass does delete the camera's active chunk
file. With `quota_bytes = 5` and the storage directory holding only the chunk
that `start_new_chunk` opened at clock value 100 (the camera's `current_file`,
10 bytes), `cleanup_old_files` unlinks that very file: `glob("*.mp4")`
includes `current_file`, and the while loop never excludes it. -/
theorem cleanup_deletes_active_chunk :
    (cleanup_old_files 5 (fun _ => false) [activeChunkFile]).deleted = [activeChunkFile] ∧
    (cleanup_old_files 5 (fun _ => false) [activeChunkFile]).dir = [] := by
  constructor
  · decide
  · decide

/-- C2 (confirmed): for every quota and every directory state (with the
filesystem's guarantee that names are distinct, and no deletion failures),
after `cleanup_old_files` either the total size of the camera's stored
`*.mp4` files is within quota or no `*.mp4` file remains at all (in
particular no finalized one); the deleted files are an initial segment of
the candidates in ascending last-modified order. -/
theorem cleanup_quota_or_all_removed (quota : Nat) (dir : List DiskFile)
    (hnd : (dir.map DiskFile.name).Nodup) :
    (sizeSum (mp4Files (cleanup_old_files quota (fun _ => false) dir).dir) ≤ quota ∨
      mp4Files (cleanup_old_files quota (fun _ => false) dir).dir = []) ∧
    (∃ k, (cleanup_old_files quota (fun _ => false) dir).deleted
        = (sortByMtime (mp4Files dir)).take k) ∧
    List.Sorted mtimeLE (sortByMtime (mp4Files dir)) := by
  have hsub : List.Sublist ((mp4Files dir).map DiskFile.name) (dir.map DiskFile.name) :=
    (List.filter_sublist dir).map DiskFile.name
  have hnd1 : ((mp4Files dir).map DiskFile.name).Nodup := hnd.sublist hsub
  have hnd2 : ((sortByMtime (mp4Files dir)).map DiskFile.name).Nodup :=
    (((sortByMtime_perm (mp4Files dir)).map DiskFile.name).nodup_iff).mpr hnd1
  have hperm : (mp4Files dir).Perm (sortByMtime (mp4Files dir)) :=
    (sortByMtime_perm (mp4Files dir)).symm
  obtain ⟨hdisj, k, hdel⟩ :=
    evictLoop_noFail quota (sortByMtime (mp4Files dir)) dir [] [] hperm hnd2
  exact ⟨hdisj, ⟨k, by simpa using hdel⟩, sortByMtime_sorted (mp4Files dir)⟩

/-- Witness for C2 at a concrete store: three finalized 40-byte chunks and
quota 100. -/
theorem cleanup_quota_or_all_removed_witness :
    (([⟨"a.mp4", 3, 40⟩, ⟨"b.mp4", 1, 40⟩, ⟨"c.mp4", 2, 40⟩] :
        List DiskFile).map DiskFile.name).Nodup ∧
    ((sizeSum (mp4Files (cleanup_old_files 100 (fun _ => false)
        [⟨"a.mp4", 3, 40⟩, ⟨"b.mp4", 1, 40⟩, ⟨"c.mp4", 2, 40⟩]).dir) ≤ 100 ∨
      mp4Files (cleanup_old_files 100 (fun _ => false)
        [⟨"a.mp4", 3, 40⟩, ⟨"b.mp4", 1, 40⟩, ⟨"c.mp4", 2, 40⟩]).dir = []) ∧
    (∃ k, (cleanup_old_files 100 (fun _ => false)
        [⟨"a.mp4", 3, 40⟩, ⟨"b.mp4", 1, 40⟩, ⟨"c.mp4", 2, 40⟩]).deleted
        = (sortByMtime (mp4Files
            [⟨"a.mp4", 3, 40⟩, ⟨"b.mp4", 1, 40⟩, ⟨"c.mp4", 2, 40⟩])).take k) ∧
    List.Sorted mtimeLE (sortByMtime (mp4Files
        [⟨"a.mp4", 3, 40⟩, ⟨"b.mp4", 1, 40⟩, ⟨"c.mp4", 2, 40⟩]))) :=
  ⟨by decide,
    cleanup_quota_or_all_removed 100
      [⟨"a.mp4", 3, 40⟩, ⟨"b.mp4", 1, 40⟩, ⟨"c.mp4", 2, 40⟩] (by decide)⟩

/-- C3 (counterexample): a single deletion failure terminates the whole
eviction pass. Quota 0, two finalized chunks `a.mp4` (older) and `b.mp4`;
unlinking `a.mp4` fails. The claim requires the pass to continue and delete
`b.mp4`; instead the exception lands in the function-level `except` clause:
nothing is deleted, `b.mp4` is never considered, and the pass ends. -/
theorem cleanup_failure_stops_pass_cex :
    (cleanup_old_files 0 (fun n => n == "a.mp4")
        [⟨"a.mp4", 1, 10⟩, ⟨"b.mp4", 2, 10⟩]).dir
      = [⟨"a.mp4", 1, 10⟩, ⟨"b.mp4", 2, 10⟩] ∧
    (cleanup_old_files 0 (fun n => n == "a.mp4")
        [⟨"a.mp4", 1, 10⟩, ⟨"b.mp4", 2, 10⟩]).deleted = [] ∧
    (cleanup_old_files 0 (fun n => n == "a.mp4")
        [⟨"a.mp4", 1, 10⟩, ⟨"b.mp4", 2, 10⟩]).ok = false := by
  refine ⟨by decide, by decide, by decide⟩

/-- C3 (amended): when deleting an eviction candidate fails, the failure is
caught by `cleanup_old_files` itself (it returns normally, last log line the
cleanup error) — but the pass terminates there: no file whose deletion fails
is ever removed, the failing candidate is still on disk, and later candidates
are not processed. -/
theorem cleanup_failure_logged_and_aborts (quota : Nat) (fails : String → Bool)
    (dir : List DiskFile) (hnd : (dir.map DiskFile.name).Nodup)
    (hfail : (cleanup_old_files quota fails dir).ok = false) :
    (cleanup_old_files quota fails dir).log.getLast? = some LogEntry.cleanupError ∧
    (∀ f ∈ (cleanup_old_files quota fails dir).deleted, fails f.name = false) ∧
    ∃ f, f ∈ (cleanup_old_files quota fails dir).dir ∧ fails f.name = true := by
  have hsub : ∀ f ∈ sortByMtime (mp4Files dir), f ∈ dir := by
    intro f hf
    exact List.mem_of_mem_filter ((sortByMtime_perm (mp4Files dir)).subset hf)
  exact evictLoop_fail_spec quota fails (sortByMtime (mp4Files dir))
    (sizeSum (sortByMtime (mp4Files dir))) dir [] [] hsub
    (sorted_mp4_names_nodup dir hnd) (by simp) hfail

/-- Witness for the amended C3 at the counterexample store. -/
theorem cleanup_failure_logged_and_aborts_witness :
    (([⟨"a.mp4", 1, 10⟩, ⟨"b.mp4", 2, 10⟩] : List DiskFile).map DiskFile.name).Nodup ∧
    (cleanup_old_files 0 (fun n => n == "a.mp4")
        [⟨"a.mp4", 1, 10⟩, ⟨"b.mp4", 2, 10⟩]).ok = false ∧
    ((cleanup_old_files 0 (fun n => n == "a.mp4")
        [⟨"a.mp4", 1, 10⟩, ⟨"b.mp4", 2, 10⟩]).log.getLast?
          = some LogEntry.cleanupError ∧
      (∀ f ∈ (cleanup_old_files 0 (fun n => n == "a.mp4")
          [⟨"a.mp4", 1, 10⟩, ⟨"b.mp4", 2, 10⟩]).deleted, (f.name == "a.mp4") = false) ∧
      ∃ f, f ∈ (cleanup_old_files 0 (fun n => n == "a.mp4")
          [⟨"a.mp4", 1, 10⟩, ⟨"b.mp4", 2, 10⟩]).dir ∧ (f.name == "a.mp4") = true) :=
  ⟨by decide, by decide,
    cleanup_failure_logged_and_aborts 0 (fun n => n == "a.mp4")
      [⟨"a.mp4", 1, 10⟩, ⟨"b.mp4", 2, 10⟩] (by decide) (by decide)⟩

/-- C10 (confirmed): `cleanup_old_files` only ever looks at `*.mp4` files. A
file whose name does not end in `.mp4` always survives the pass, is never in
the deleted list, and removing all non-`.mp4` files from the directory
beforehand changes neither what gets deleted nor what gets logged (so such
files are not counted toward the total either). -/
theorem cleanup_ignores_non_mp4 (quota : Nat) (fails : String → Bool)
    (dir : List DiskFile) (f : DiskFile)
    (hmem : f ∈ dir) (hf : isMp4 f = false) :
    f ∈ (cleanup_old_files quota fails dir).dir ∧
    f ∉ (cleanup_old_files quota fails dir).deleted ∧
    (cleanup_old_files quota fails dir).deleted
      = (cleanup_old_files quota fails (mp4Files dir)).deleted ∧
    (cleanup_old_files quota fails dir).log
      = (cleanup_old_files quota fails (mp4Files dir)).log := by
  have hall : ∀ g ∈ sortByMtime (mp4Files dir), isMp4 g = true := by
    intro g hg
    exact List.of_mem_filter ((sortByMtime_perm (mp4Files dir)).subset hg)
  refine ⟨?_, ?_, ?_, ?_⟩
  · exact evictLoop_keeps_non_mp4 quota fails f hf (sortByMtime (mp4Files dir))
      (sizeSum (sortByMtime (mp4Files dir))) dir [] [] hmem hall
  · intro hcon
    have := evictLoop_deleted_mp4 quota fails (sortByMtime (mp4Files dir))
      (sizeSum (sortByMtime (mp4Files dir))) dir [] [] hall (by simp) f hcon
    rw [hf] at this
    exact absurd this (by simp)
  · have h := evictLoop_dir_indep quota fails (sortByMtime (mp4Files dir))
      (sizeSum (sortByMtime (mp4Files dir))) dir (mp4Files dir) [] []
    simpa [cleanup_old_files, mp4Files_idem] using h.1
  · have h := evictLoop_dir_indep quota fails (sortByMtime (mp4Files dir))
      (sizeSum (sortByMtime (mp4Files dir))) dir (mp4Files dir) [] []
    simpa [cleanup_old_files, mp4Files_idem] using h.2.1

/-- Witness for C10: a 999-byte `notes.txt` next to an over-quota chunk is
neither deleted nor counted. -/
theorem cleanup_ignores_non_mp4_witness :
    (⟨"notes.txt", 2, 999⟩ : DiskFile) ∈
        ([⟨"a.mp4", 1, 10⟩, ⟨"notes.txt", 2, 999⟩] : List DiskFile) ∧
    isMp4 ⟨"notes.txt", 2, 999⟩ = false ∧
    ((⟨"notes.txt", 2, 999⟩ : DiskFile) ∈ (cleanup_old_files 0 (fun _ => false)
        [⟨"a.mp4", 1, 10⟩, ⟨"notes.txt", 2, 999⟩]).dir ∧
      (⟨"notes.txt", 2, 999⟩ : DiskFile) ∉ (cleanup_old_files 0 (fun _ => false)
        [⟨"a.mp4", 1, 10⟩, ⟨"notes.txt", 2, 999⟩]).deleted ∧
      (cleanup_old_files 0 (fun _ => false)
        [⟨"a.mp4", 1, 10⟩, ⟨"notes.txt", 2, 999⟩]).deleted
        = (cleanup_old_files 0 (fun _ => false)
            (mp4Files [⟨"a.mp4", 1, 10⟩, ⟨"notes.txt", 2, 999⟩])).deleted ∧
      (cleanup_old_files 0 (fun _ => false)
        [⟨"a.mp4", 1, 10⟩, ⟨"notes.txt", 2, 999⟩]).log
        = (cleanup_old_files 0 (fun _ => false)
            (mp4Files [⟨"a.mp4", 1, 10⟩, ⟨"notes.txt", 2, 999⟩])).log) :=
  ⟨by decide, by decide,
    cleanup_ignores_non_mp4 0 (fun _ => false)
      [⟨"a.mp4", 1, 10⟩, ⟨"notes.txt", 2, 999⟩] ⟨"notes.txt", 2, 999⟩
      (by decide) (by decide)⟩

lemma start_evs_some (cenv : CodecEnv) (t : Nat) (w : VW) :
    (start_new_chunk cenv t (some w)).2
      = [Ev.writerRelease, Ev.writerOpen (chunkName t)] := rfl

lemma start_evs_none (cenv : CodecEnv) (t : Nat) :
    (start_new_chunk cenv t none).2 = [Ev.writerOpen (chunkName t)] := rfl

lemma start_writer (cenv : CodecEnv) (t : Nat) (prev : Option VW) :
    (start_new_chunk cenv t prev).1 = VideoWriter.make cenv := rfl

lemma recLoop_nil (cenv : CodecEnv) (dur : Nat) (w : VW) (cs : Nat) :
    recLoop cenv dur [] w cs = ⟨w, [], false⟩ := rfl

lemma recLoop_not_running {cenv : CodecEnv} {dur : Nat} {s : Step}
    (rest : List Step) (w : VW) (cs : Nat) (h : s.running = false) :
    recLoop cenv dur (s :: rest) w cs = ⟨w, [], false⟩ := by
  simp [recLoop, h]

lemma recLoop_read_fail {cenv : CodecEnv} {dur : Nat} {s : Step}
    (rest : List Step) (w : VW) (cs : Nat) (h : s.running = true) (hr : s.read = none) :
    recLoop cenv dur (s :: rest) w cs = ⟨w, [], true⟩ := by
  simp [recLoop, h, hr]

lemma recLoop_step_rot {cenv : CodecEnv} {dur : Nat} {s : Step} {cs : Nat} {fr : Nat}
    (rest : List Step) (w : VW) (h : s.running = true) (hr : s.read = some fr)
    (hrot : s.now - cs > dur * 60) :
    recLoop cenv dur (s :: rest) w cs =
      ⟨(recLoop cenv dur rest (VideoWriter.make cenv) s.now).writer,
        Ev.frameWrite fr :: Ev.writerRelease :: Ev.writerOpen (chunkName s.now) ::
          Ev.cleanup :: (recLoop cenv dur rest (VideoWriter.make cenv) s.now).evs,
        (recLoop cenv dur rest (VideoWriter.make cenv) s.now).raised⟩ := by
  simp [recLoop, h, hr, hrot, start_new_chunk]

lemma recLoop_step_no_rot {cenv : CodecEnv} {dur : Nat} {s : Step} {cs : Nat} {fr : Nat}
    (rest : List Step) (w : VW) (h : s.running = true) (hr : s.read = some fr)
    (hrot : ¬ s.now - cs > dur * 60) :
    recLoop cenv dur (s :: rest) w cs =
      ⟨(recLoop cenv dur rest (w.write fr) cs).writer,
        Ev.frameWrite fr :: (recLoop cenv dur rest (w.write fr) cs).evs,
        (recLoop cenv dur rest (w.write fr) cs).raised⟩ := by
  simp [recLoop, h, hr, hrot]

lemma recLoop_counts (cenv : CodecEnv) (dur : Nat) :
    ∀ (steps : List Step), ∀ (w : VW), ∀ (cs : Nat),
    ((recLoop cenv dur steps w cs).evs.countP isOpenEv
        = (recLoop cenv dur steps w cs).evs.countP isCleanupEv) ∧
    ((recLoop cenv dur steps w cs).evs.countP isWriterReleaseEv
        = (recLoop cenv dur steps w cs).evs.countP isCleanupEv) ∧
    ((recLoop cenv dur steps w cs).evs.countP isCapReleaseEv = 0) ∧
    ((recLoop cenv dur steps w cs).evs.countP isLogErrEv = 0) := by
  intro steps
  induction steps with
  | nil =>
    intro w cs
    simp [recLoop_nil]
  | cons s rest ih =>
    intro w cs
    cases hrun : s.running with
    | false => simp [recLoop_not_running rest w cs hrun]
    | true =>
      cases hrd : s.read with
      | none => simp [recLoop_read_fail rest w cs hrun hrd]
      | some fr =>
        by_cases hrot : s.now - cs > dur * 60
        · rw [recLoop_step_rot rest w hrun hrd hrot]
          obtain ⟨h1, h2, h3, h4⟩ := ih (VideoWriter.make cenv) s.now
          refine ⟨?_, ?_, ?_, ?_⟩ <;>
            simp [List.countP_cons, isOpenEv, isCleanupEv, isWriterReleaseEv,
              isCapReleaseEv, isLogErrEv, h1, h2, h3, h4]
        · rw [recLoop_step_no_rot rest w hrun hrd hrot]
          obtain ⟨h1, h2, h3, h4⟩ := ih (w.write fr) cs
          refine ⟨?_, ?_, ?_, ?_⟩ <;>
            simp [List.countP_cons, isOpenEv, isCleanupEv, isWriterReleaseEv,
              isCapReleaseEv, isLogErrEv, h1, h2, h3, h4]

lemma recLoop_cleanup_count (cenv : CodecEnv) (dur : Nat) :
    ∀ (steps : List Step), ∀ (w : VW), ∀ (cs : Nat),
    (recLoop cenv dur steps w cs).evs.countP isCleanupEv = rotCount dur steps cs := by
  intro steps
  induction steps with
  | nil =>
    intro w cs
    simp [recLoop_nil, rotCount]
  | cons s rest ih =>
    intro w cs
    cases hrun : s.running with
    | false => simp [recLoop_not_running rest w cs hrun, rotCount, hrun]
    | true =>
      cases hrd : s.read with
      | none => simp [recLoop_read_fail rest w cs hrun hrd, rotCount, hrun, hrd]
      | some fr =>
        by_cases hrot : s.now - cs > dur * 60
        · rw [recLoop_step_rot rest w hrun hrd hrot]
          simp [rotCount, hrun, hrd, hrot, List.countP_cons,
            isCleanupEv, ih (VideoWriter.make cenv) s.now]
        · rw [recLoop_step_no_rot rest w hrun hrd hrot]
          simp [rotCount, hrun, hrd, hrot, List.countP_cons,
            isCleanupEv, ih (w.write fr) cs]

lemma recLoop_raised (cenv : CodecEnv) (dur : Nat) :
    ∀ (steps : List Step), ∀ (w : VW), ∀ (cs : Nat),
    (recLoop cenv dur steps w cs).raised = readFailReached dur steps cs := by
  intro steps
  induction steps with
  | nil =>
    intro w cs
    simp [recLoop_nil, readFailReached]
  | cons s rest ih =>
    intro w cs
    cases hrun : s.running with
    | false => simp [recLoop_not_running rest w cs hrun, readFailReached, hrun]
    | true =>
      cases hrd : s.read with
      | none => simp [recLoop_read_fail rest w cs hrun hrd, readFailReached, hrun, hrd]
      | some fr =>
        by_cases hrot : s.now - cs > dur * 60
        · rw [recLoop_step_rot rest w hrun hrd hrot]
          simp [readFailReached, hrun, hrd, hrot, ih (VideoWriter.make cenv) s.now]
        · rw [recLoop_step_no_rot rest w hrun hrd hrot]
          simp [readFailReached, hrun, hrd, hrot, ih (w.write fr) cs]

lemma recLoop_evs_indep (dur : Nat) :
    ∀ (steps : List Step), ∀ (cs : Nat), ∀ (c c' : CodecEnv), ∀ (w w' : VW),
    (recLoop c dur steps w cs).evs = (recLoop c' dur steps w' cs).evs := by
  intro steps
  induction steps with
  | nil =>
    intro cs c c' w w'
    simp [recLoop_nil]
  | cons s rest ih =>
    intro cs c c' w w'
    cases hrun : s.running with
    | false => simp [recLoop_not_running rest _ cs hrun]
    | true =>
      cases hrd : s.read with
      | none => simp [recLoop_read_fail rest _ cs hrun hrd]
      | some fr =>
        by_cases hrot : s.now - cs > dur * 60
        · rw [recLoop_step_rot rest w hrun hrd hrot,
            recLoop_step_rot rest w' hrun hrd hrot]
          simp [ih s.now c c' (VideoWriter.make c) (VideoWriter.make c')]
        · rw [recLoop_step_no_rot rest w hrun hrd hrot,
            recLoop_step_no_rot rest w' hrun hrd hrot]
          simp [ih cs c c' (w.write fr) (w'.write fr)]

lemma amoo_nil (n : Nat) : atMostOneOpen [] n = true := rfl

lemma chk_nil : chkCleanup [] = true := rfl

lemma amoo_capOpen (l : List Ev) (n : Nat) :
    atMostOneOpen (Ev.capOpen :: l) n = atMostOneOpen l n := rfl

lemma amoo_frameWrite (fr : Nat) (l : List Ev) (n : Nat) :
    atMostOneOpen (Ev.frameWrite fr :: l) n = atMostOneOpen l n := rfl

lemma amoo_cleanup (l : List Ev) (n : Nat) :
    atMostOneOpen (Ev.cleanup :: l) n = atMostOneOpen l n := rfl

lemma amoo_logErr (l : List Ev) (n : Nat) :
    atMostOneOpen (Ev.logRecordError :: l) n = atMostOneOpen l n := rfl

lemma amoo_capRelease (l : List Ev) (n : Nat) :
    atMostOneOpen (Ev.capRelease :: l) n = atMostOneOpen l n := rfl

lemma amoo_writerOpen (nm : String) (l : List Ev) (n : Nat) :
    atMostOneOpen (Ev.writerOpen nm :: l) n
      = (decide (n = 0) && atMostOneOpen l (n + 1)) := rfl

lemma amoo_writerRelease (l : List Ev) (n : Nat) :
    atMostOneOpen (Ev.writerRelease :: l) n = atMostOneOpen l (n - 1) := rfl

lemma recLoop_atMostOne (cenv : CodecEnv) (dur : Nat) :
    ∀ (steps : List Step), ∀ (w : VW), ∀ (cs : Nat), ∀ (suffix : List Ev),
    atMostOneOpen ((recLoop cenv dur steps w cs).evs ++ suffix) 1
      = atMostOneOpen suffix 1 := by
  intro steps
  induction steps with
  | nil =>
    intro w cs suffix
    simp [recLoop_nil]
  | cons s rest ih =>
    intro w cs suffix
    cases hrun : s.running with
    | false => simp [recLoop_not_running rest w cs hrun]
    | true =>
      cases hrd : s.read with
      | none => simp [recLoop_read_fail rest w cs hrun hrd]
      | some fr =>
        by_cases hrot : s.now - cs > dur * 60
        · rw [recLoop_step_rot rest w hrun hrd hrot]
          simp only [List.cons_append, amoo_frameWrite, amoo_writerRelease,
            amoo_writerOpen, amoo_cleanup]
          simp [ih (VideoWriter.make cenv) s.now suffix]
        · rw [recLoop_step_no_rot rest w hrun hrd hrot]
          simp only [List.cons_append, amoo_frameWrite]
          exact ih (w.write fr) cs suffix

lemma chk_capOpen (l : List Ev) :
    chkCleanup (Ev.capOpen :: l) = chkCleanup l := rfl

lemma chk_frameWrite (fr : Nat) (l : List Ev) :
    chkCleanup (Ev.frameWrite fr :: l) = chkCleanup l := rfl

lemma chk_writerRelease (l : List Ev) :
    chkCleanup (Ev.writerRelease :: l) = chkCleanup l := rfl

lemma chk_capRelease (l : List Ev) :
    chkCleanup (Ev.capRelease :: l) = chkCleanup l := rfl

lemma chk_logErr (l : List Ev) :
    chkCleanup (Ev.logRecordError :: l) = chkCleanup l := rfl

lemma chk_open_cleanup (nm : String) (l : List Ev) :
    chkCleanup (Ev.writerOpen nm :: Ev.cleanup :: l) = chkCleanup l := rfl

lemma chk_open_not_cleanup (nm : String) (l : List Ev)
    (h : l.head? ≠ some Ev.cleanup) :
    chkCleanup (Ev.writerOpen nm :: l) = chkCleanup l := by
  cases l with
  | nil => rfl
  | cons e tail =>
    cases e with
    | capOpen => rfl
    | writerRelease => rfl
    | writerOpen nm' => rfl
    | frameWrite fr => rfl
    | cleanup => exact absurd rfl h
    | logRecordError => rfl
    | capRelease => rfl

lemma recLoop_chkCleanup (cenv : CodecEnv) (dur : Nat) :
    ∀ (steps : List Step), ∀ (w : VW), ∀ (cs : Nat), ∀ (suffix : List Ev),
    chkCleanup ((recLoop cenv dur steps w cs).evs ++ suffix) = chkCleanup suffix := by
  intro steps
  induction steps with
  | nil =>
    intro w cs suffix
    simp [recLoop_nil]
  | cons s rest ih =>
    intro w cs suffix
    cases hrun : s.running with
    | false => simp [recLoop_not_running rest w cs hrun]
    | true =>
      cases hrd : s.read with
      | none => simp [recLoop_read_fail rest w cs hrun hrd]
      | some fr =>
        by_cases hrot : s.now - cs > dur * 60
        · rw [recLoop_step_rot rest w hrun hrd hrot]
          simp only [List.cons_append, chk_frameWrite, chk_writerRelease,
            chk_open_cleanup]
          exact ih (VideoWriter.make cenv) s.now suffix
        · rw [recLoop_step_no_rot rest w hrun hrd hrot]
          simp only [List.cons_append, chk_frameWrite]
          exact ih (w.write fr) cs suffix

lemma recLoop_evs_head (cenv : CodecEnv) (dur : Nat) (steps : List Step)
    (w : VW) (cs : Nat) :
    (recLoop cenv dur steps w cs).evs = [] ∨
    ∃ fr tail, (recLoop cenv dur steps w cs).evs = Ev.frameWrite fr :: tail := by
  cases steps with
  | nil => exact Or.inl (by simp [recLoop_nil])
  | cons s rest =>
    cases hrun : s.running with
    | false => exact Or.inl (by simp [recLoop_not_running rest w cs hrun])
    | true =>
      cases hrd : s.read with
      | none => exact Or.inl (by simp [recLoop_read_fail rest w cs hrun hrd])
      | some fr =>
        by_cases hrot : s.now - cs > dur * 60
        · rw [recLoop_step_rot rest w hrun hrd hrot]
          exact Or.inr ⟨fr, _, rfl⟩
        · rw [recLoop_step_no_rot rest w hrun hrd hrot]
          exact Or.inr ⟨fr, _, rfl⟩

lemma writeAll_opened (w : VW) (h : w.opened = true) :
    ∀ fs : List Nat, (writeAll w fs).frames = w.frames ++ fs := by
  intro fs
  induction fs generalizing w with
  | nil => simp [writeAll]
  | cons f fs ih =>
    have hw : w.write f = { w with frames := w.frames ++ [f] } := by
      simp [VW.write, h]
    have hopen : (w.write f).opened = true := by
      rw [hw]
      exact h
    calc (writeAll w (f :: fs)).frames = (writeAll (w.write f) fs).frames := rfl
      _ = (w.write f).frames ++ fs := ih (w.write f) hopen
      _ = w.frames ++ (f :: fs) := by rw [hw]; simp

lemma writeAll_closed (w : VW) (h : w.opened = false) :
    ∀ fs : List Nat, writeAll w fs = w := by
  intro fs
  induction fs generalizing w with
  | nil => rfl
  | cons f fs ih =>
    have hw : w.write f = w := by simp [VW.write, h]
    calc writeAll w (f :: fs) = writeAll (w.write f) fs := rfl
      _ = writeAll w fs := by rw [hw]
      _ = w := ih w h

lemma make_frames (cenv : CodecEnv) : (VideoWriter.make cenv).frames = [] := by
  cases h : cenv.mp4vOpens <;> simp [VideoWriter.make, cv2VideoWriter, h]

lemma record_openOk_trace (env : CamEnv) (dur : Nat) (henv : env.openOk = true) :
    (record env dur).trace
      = Ev.capOpen :: (Ev.writerOpen (chunkName env.t0) ::
          ((recLoop env.codec dur env.steps (VideoWriter.make env.codec) env.t0).evs
            ++ ((if (recLoop env.codec dur env.steps (VideoWriter.make env.codec)
                    env.t0).raised then [Ev.logRecordError] else [])
              ++ [Ev.writerRelease, Ev.capRelease]))) := by
  simp [record, henv, start_new_chunk, List.append_assoc]

/-- C7 (confirmed): on every exit path of `record` — capture-open failure,
frame-read failure, or external stop — the capture handle is released exactly
once (trace ends with it), and every writer that was opened is released: the
writer-release count equals the writer-open count, which is rotations + 1
when the capture opened and 0 when it never did (no writer exists then). -/
theorem record_releases_resources_once (env : CamEnv) (dur : Nat) :
    ((record env dur).trace.countP isCapReleaseEv = 1) ∧
    ((record env dur).trace.countP isWriterReleaseEv
        = (record env dur).trace.countP isOpenEv) ∧
    ((record env dur).trace.countP isOpenEv
        = (if env.openOk then (record env dur).trace.countP isCleanupEv + 1 else 0)) ∧
    (∃ pre, (record env dur).trace = pre ++ [Ev.capRelease]) := by
  cases henv : env.openOk with
  | false =>
    refine ⟨?_, ?_, ?_, ⟨[Ev.capOpen, Ev.logRecordError], ?_⟩⟩ <;>
      simp [record, henv, isCapReleaseEv, isWriterReleaseEv, isOpenEv, isCleanupEv]
  | true =>
    rw [record_openOk_trace env dur henv]
    obtain ⟨h1, h2, h3, h4⟩ :=
      recLoop_counts env.codec dur env.steps (VideoWriter.make env.codec) env.t0
    refine ⟨?_, ?_, ?_, ?_⟩
    · cases hb : (recLoop env.codec dur env.steps (VideoWriter.make env.codec)
          env.t0).raised <;>
        simp [hb, List.countP_append, List.countP_cons, isCapReleaseEv,
          isWriterReleaseEv, isOpenEv, isCleanupEv, h1, h2, h3, h4]
    · cases hb : (recLoop env.codec dur env.steps (VideoWriter.make env.codec)
          env.t0).raised <;>
        simp [hb, List.countP_append, List.countP_cons, isCapReleaseEv,
          isWriterReleaseEv, isOpenEv, isCleanupEv, h1, h2, h3, h4]
    · cases hb : (recLoop env.codec dur env.steps (VideoWriter.make env.codec)
          env.t0).raised <;>
        simp [hb, henv, List.countP_append, List.countP_cons, isCapReleaseEv,
          isWriterReleaseEv, isOpenEv, isCleanupEv, h1, h2, h3, h4]
    · refine ⟨Ev.capOpen :: (Ev.writerOpen (chunkName env.t0) ::
        ((recLoop env.codec dur env.steps (VideoWriter.make env.codec) env.t0).evs
          ++ ((if (recLoop env.codec dur env.steps (VideoWriter.make env.codec)
                  env.t0).raised then [Ev.logRecordError] else [])
            ++ [Ev.writerRelease]))), ?_⟩
      simp [List.append_assoc]

/-- C8 (confirmed): `start_new_chunk` with a previously active writer emits
the release of the old writer strictly before the open of the new chunk; at
every point of every `record` trace at most one writer is open; every
eviction event sits immediately after a chunk-open event (rotation
boundary); and the number of eviction passes equals exactly the number of
steps at which `now - chunk_start_time > chunk_duration_mins * 60` held
(zero on an ordinary frame, zero if the capture never opened). -/
theorem rotation_single_writer_and_eviction (env : CamEnv) (dur : Nat)
    (cenv : CodecEnv) (t : Nat) (w : VW) :
    ((start_new_chunk cenv t (some w)).2
        = [Ev.writerRelease, Ev.writerOpen (chunkName t)]) ∧
    (atMostOneOpen (record env dur).trace 0 = true) ∧
    (chkCleanup (record env dur).trace = true) ∧
    ((record env dur).trace.countP isCleanupEv
        = (if env.openOk then rotCount dur env.steps env.t0 else 0)) := by
  refine ⟨start_evs_some cenv t w, ?_, ?_, ?_⟩
  · cases henv : env.openOk with
    | false => simp [record, henv, amoo_capOpen, amoo_logErr, amoo_capRelease, amoo_nil]
    | true =>
      rw [record_openOk_trace env dur henv]
      rw [amoo_capOpen, amoo_writerOpen]
      rw [recLoop_atMostOne env.codec dur env.steps (VideoWriter.make env.codec) env.t0]
      cases hb : (recLoop env.codec dur env.steps (VideoWriter.make env.codec)
          env.t0).raised <;>
        simp [hb, amoo_logErr, amoo_writerRelease, amoo_capRelease, amoo_nil]
  · cases henv : env.openOk with
    | false => simp [record, henv, chk_capOpen, chk_logErr, chk_capRelease, chk_nil]
    | true =>
      rw [record_openOk_trace env dur henv]
      rw [chk_capOpen]
      have hhd : ((recLoop env.codec dur env.steps (VideoWriter.make env.codec)
            env.t0).evs
          ++ ((if (recLoop env.codec dur env.steps (VideoWriter.make env.codec)
                  env.t0).raised then [Ev.logRecordError] else [])
            ++ [Ev.writerRelease, Ev.capRelease])).head? ≠ some Ev.cleanup := by
        rcases recLoop_evs_head env.codec dur env.steps (VideoWriter.make env.codec)
            env.t0 with h | ⟨fr, tail, h⟩
        · rw [h]
          cases hb : (recLoop env.codec dur env.steps (VideoWriter.make env.codec)
              env.t0).raised <;> simp [hb]
        · rw [h]
          simp
      rw [chk_open_not_cleanup _ _ hhd]
      rw [recLoop_chkCleanup env.codec dur env.steps (VideoWriter.make env.codec) env.t0]
      cases hb : (recLoop env.codec dur env.steps (VideoWriter.make env.codec)
          env.t0).raised <;>
        simp [hb, chk_logErr, chk_writerRelease, chk_capRelease, chk_nil]
  · cases henv : env.openOk with
    | false => simp [record, henv, isCleanupEv]
    | true =>
      rw [record_openOk_trace env dur henv]
      have hc := recLoop_cleanup_count env.codec dur env.steps
        (VideoWriter.make env.codec) env.t0
      cases hb : (recLoop env.codec dur env.steps (VideoWriter.make env.codec)
          env.t0).raised <;>
        simp [hb, henv, List.countP_append, List.countP_cons, isCleanupEv, hc]

/-- C9 (confirmed): constructing a `VideoWriter` never fails — `mp4v` is tried
first and `MJPG` is the fallback; when neither codec initializes the object is
still returned with `opened = false` and writing a whole frame sequence to it
silently drops every frame (`write`/`release` never raise in the cv2
contract), while an opened writer encodes exactly the given frames; and
`start_new_chunk` always ends in a chunk-open event, for every codec
environment — so chunk rotation never fails due to writer initialization. -/
theorem videoWriter_fallback_total (cenv : CodecEnv) (fs : List Nat) (t : Nat)
    (prev : Option VW) :
    (VideoWriter.make cenv
        = (if cenv.mp4vOpens then { codec := "mp4v", opened := true, frames := [] }
            else { codec := "MJPG", opened := cenv.mjpgOpens, frames := [] })) ∧
    ((writeAll (VideoWriter.make cenv) fs).frames
        = (if (VideoWriter.make cenv).opened then fs else [])) ∧
    ((start_new_chunk cenv t prev).2.getLast? = some (Ev.writerOpen (chunkName t))) := by
  refine ⟨?_, ?_, ?_⟩
  · obtain ⟨m, j⟩ := cenv
    cases m <;> cases j <;> decide
  · cases hop : (VideoWriter.make cenv).opened with
    | false =>
      rw [writeAll_closed (VideoWriter.make cenv) hop fs]
      simp [make_frames]
    | true =>
      rw [writeAll_opened (VideoWriter.make cenv) hop fs]
      simp [make_frames]
  · cases prev <;> rfl

/-- C4 (counterexample): frame-write failures are not logged. A run whose
capture opens but where both codecs fail to initialize: both frames are
written to the failed writer and silently dropped (the final writer encoded
nothing), the loop continues to the second frame, and the trace contains no
log event at all — contradicting "the failure is logged". -/
theorem write_failure_unlogged_cex :
    ((record c4env 60).finalWriter = some { codec := "MJPG", opened := false, frames := [] }) ∧
    ((record c4env 60).trace
        = [Ev.capOpen, Ev.writerOpen "0.mp4", Ev.frameWrite 7, Ev.frameWrite 8,
            Ev.writerRelease, Ev.capRelease]) ∧
    (Ev.logRecordError ∉ (record c4env 60).trace) := by
  refine ⟨by decide, by decide, by decide⟩

/-- C4 (amended): writes to the active writer are not individually guarded:
a failing writer changes neither the events of the run nor its logging — the
whole observable trace is independent of the codec environment (frames are
just dropped) — and a record-level error is logged exactly when the capture
fails to open or a frame read fails, which are also the only ways the loop
stops. -/
theorem record_write_failures_silent (env : CamEnv) (dur : Nat) (c' : CodecEnv) :
    ((record { env with codec := c' } dur).trace = (record env dur).trace) ∧
    ((record env dur).trace.countP isLogErrEv
        = (if env.openOk
            then (if readFailReached dur env.steps env.t0 then 1 else 0) else 1)) := by
  constructor
  · cases henv : env.openOk with
    | false => simp [record, henv]
    | true =>
      have henv' : ({ env with codec := c' } : CamEnv).openOk = true := henv
      have hB := record_openOk_trace { env with codec := c' } dur henv'
      have hA := record_openOk_trace env dur henv
      rw [henv] at hB
      rw [hA, hB]
      have hevs := recLoop_evs_indep dur env.steps env.t0 c' env.codec
        (VideoWriter.make c') (VideoWriter.make env.codec)
      have hraised : (recLoop c' dur env.steps (VideoWriter.make c') env.t0).raised
          = (recLoop env.codec dur env.steps (VideoWriter.make env.codec) env.t0).raised := by
        rw [recLoop_raised, recLoop_raised]
      simp [hevs, hraised]
  · cases henv : env.openOk with
    | false => simp [record, henv, isLogErrEv]
    | true =>
      rw [record_openOk_trace env dur henv]
      obtain ⟨_, _, _, h4⟩ :=
        recLoop_counts env.codec dur env.steps (VideoWriter.make env.codec) env.t0
      have hraised := recLoop_raised env.codec dur env.steps
        (VideoWriter.make env.codec) env.t0
      cases hb : (recLoop env.codec dur env.steps (VideoWriter.make env.codec)
          env.t0).raised <;>
        simp [hb, henv, ← hraised, List.countP_append, List.countP_cons, isLogErrEv, h4]

/-- C5 (counterexample): on a shutdown signal with one camera registered, the
handler's action sequence contains no join/wait on the worker at all, yet
ends in `sys.exit(0)` — the claim's "waits for all worker tasks … and only
then exits" does not hold. -/
theorem signal_handler_no_join_cex :
    (SupAct.joinWorker "cam1" ∉ signal_handler ["cam1"]) ∧
    ((signal_handler ["cam1"]).getLast? = some (SupAct.exitProcess 0)) := by
  refine ⟨by decide, by decide⟩

/-- C5 (amended): the signal handler calls `stop()` on every registered
worker and then immediately exits the process with status 0, without waiting
for any worker to observe the flag or finish cleanup: no join action occurs
on the signal path (the `SystemExit` skips `run()`'s join loop and the
workers are daemon threads). -/
theorem signal_handler_stops_then_exits (cams : List String) (id : String)
    (h : id ∈ cams) :
    (SupAct.stopWorker id ∈ signal_handler cams) ∧
    ((signal_handler cams).getLast? = some (SupAct.exitProcess 0)) ∧
    (∀ j : String, SupAct.joinWorker j ∉ signal_handler cams) := by
  refine ⟨?_, ?_, ?_⟩
  · exact List.mem_cons_of_mem _ (List.mem_append_left _ (List.mem_map_of_mem _ h))
  · show (SupAct.setRunningFalse :: (cams.map SupAct.stopWorker
        ++ [SupAct.exitProcess 0])).getLast? = some (SupAct.exitProcess 0)
    rw [← List.cons_append]
    exact List.getLast?_concat _
  · intro j
    simp [signal_handler]

/-- Witness for the amended C5 with one registered camera. -/
theorem signal_handler_stops_then_exits_witness :
    ("cam1" ∈ ["cam1"]) ∧
    ((SupAct.stopWorker "cam1" ∈ signal_handler ["cam1"]) ∧
      ((signal_handler ["cam1"]).getLast? = some (SupAct.exitProcess 0)) ∧
      (∀ j : String, SupAct.joinWorker j ∉ signal_handler ["cam1"])) :=
  ⟨by decide, signal_handler_stops_then_exits ["cam1"] "cam1" (by decide)⟩

/-- C6 (counterexample): a parseable configuration with zero camera entries
is accepted — `load_config` returns the empty camera list instead of
aborting with a non-zero exit, and the process goes on to run with no
workers. -/
theorem load_config_zero_cameras_ok_cex :
    load_config (some { base_storage_dir := none, cameras := some [] })
      = Except.ok [] := rfl

/-- C6 (amended): a missing or unparseable configuration file, or one
without the `cameras` key, aborts startup with exit status 1 before any
worker exists; but a parseable configuration with zero camera entries is not
rejected — every entry of `cameras` (possibly none) becomes a camera
process and the system runs with whatever workers that yields. -/
theorem load_config_fatal_only_on_parse (b : Option String) (cams : List CamConfig) :
    (load_config none = Except.error 1) ∧
    (load_config (some { base_storage_dir := b, cameras := none }) = Except.error 1) ∧
    (load_config (some { base_storage_dir := b, cameras := some cams })
        = Except.ok (cams.map mkCameraProcess)) := by
  refine ⟨rfl, rfl, rfl⟩

end SecurityCam
